import Mathlib

/-!
Shallow embedding of the ConvAI router core (dialog manager, bot gateway,
conversation model) translated from:
  src/convai/dialog_manager.py
  src/convai/conversation_gateways.py
  src/model/conversation.py
Python dicts keyed by conversation id are modelled as association lists with
dict semantics (`mapInsert` replaces, `mapErase` deletes); async calls are
modelled as pure state transitions returning the list of gateway events;
random draws (profile choice, shuffle, bot sampling) are modelled as explicit
oracle arguments so that the functions stay deterministic and executable.
-/

namespace ConvaiRouter

/-- Association-list lookup with Python-dict semantics (first binding wins). -/
def mapLookup {α : Type} (k : Nat) : List (Nat × α) → Option α
  | [] => none
  | p :: rest => if p.1 = k then some p.2 else mapLookup k rest

/-- Remove every binding of key `k` (a dict holds at most one). -/
def mapErase {α : Type} (k : Nat) : List (Nat × α) → List (Nat × α)
  | [] => []
  | p :: rest => if p.1 = k then mapErase k rest else p :: mapErase k rest

/-- Dict assignment `d[k] = v`. -/
def mapInsert {α : Type} (k : Nat) (v : α) (m : List (Nat × α)) : List (Nat × α) :=
  (k, v) :: mapErase k m

/-- Number of bindings of key `k` present in the association list. -/
def keyCount {α : Type} (k : Nat) (m : List (Nat × α)) : Nat :=
  (m.filter (fun p => p.1 = k)).length

/-! ### Data model (src/model) -/

/-- A chat participant: a human `User` or a `Bot` (src/model/user.py, bot.py).
Identity keys are abstracted to naturals. -/
inductive Peer
  | user (id : Nat)
  | bot (token : Nat)
deriving DecidableEq, Repr

/-- `isinstance(peer, Bot)` checks in dialog_manager.py. -/
def Peer.isBot : Peer → Bool
  | .user _ => false
  | .bot _ => true

/-- PersonProfile (src/model/person_profile.py): `sentences` required,
`topics` optional; `topics or []` in the source collapses a missing list
to the empty list, which is how we represent it. -/
structure PersonProfile where
  sentences : List String
  topics : List String
deriving DecidableEq, Repr

/-- Message (src/model/message.py). `msg_id` is an `Int` because
`on_message_evaluated` uses `-1` as a not-found sentinel when resolving
an implied message id. -/
structure Message where
  msg_id : Int
  text : String
  sender : Peer
  time : Nat
  evaluation_score : Option Int
  system : Bool
deriving DecidableEq, Repr

/-- ConversationPeer (src/model/conversation_peer.py) plus the
`triggered_dialog_end` attribute that DialogManager.trigger_dialog_end
sets dynamically on the embedded document. -/
structure ConversationPeer where
  peer : Peer
  assigned_profile : PersonProfile
  dialog_evaluation_score : Option Int
  other_peer_profile_options : List PersonProfile
  other_peer_profile_selected : Option PersonProfile
  other_peer_profile_selected_parts : List (Option String)
  triggered_dialog_end : Bool
deriving DecidableEq, Repr

/-- Conversation (src/model/conversation.py). `start_time`/`end_time` are
unset (`none`) until `clean` runs during save. -/
structure Conversation where
  conversation_id : Nat
  participant1 : ConversationPeer
  participant2 : ConversationPeer
  messages : List Message
  start_time : Option Nat
  end_time : Option Nat
  active_topic_index : Nat
  messages_to_switch_topic : Nat
  messages_to_switch_topic_left : Nat
deriving DecidableEq, Repr

/-- The `participants` property. -/
def Conversation.participants (c : Conversation) : List ConversationPeer :=
  [c.participant1, c.participant2]

/-- Conversation.clean (src/model/conversation.py lines 30-37): raise a
validation error on an empty conversation, otherwise set `start_time` to the
minimum and `end_time` to the maximum of the message times. -/
def Conversation.clean (c : Conversation) : Except String Conversation :=
  if c.messages.isEmpty then
    .error "Conversation can not be empty"
  else
    .ok { c with start_time := (c.messages.map (fun m => m.time)).min?,
                 end_time := (c.messages.map (fun m => m.time)).max? }

/-- Conversation.next_topic (src/model/conversation.py lines 58-73).
Returns the int result of the Python method together with the updated
conversation (the Python method mutates `self` in place). -/
def Conversation.next_topic (c : Conversation) : Int × Conversation :=
  let p1_topics_n := c.participant1.assigned_profile.topics.length
  let p2_topics_n := c.participant2.assigned_profile.topics.length
  if c.active_topic_index + 1 < min p1_topics_n p2_topics_n then
    if c.messages_to_switch_topic_left = 0 then
      (0, { c with active_topic_index := c.active_topic_index + 1,
                   messages_to_switch_topic_left := c.messages_to_switch_topic })
    else ((c.messages_to_switch_topic_left : Int), c)
  else (-1, c)

/-! ### DialogManager (src/convai/dialog_manager.py) -/

/-- DialogManager.EvaluationState, an `enum.Flag` with members SCORE_GIVEN and
PROFILE_SELECTED; COMPLETE is their union. Modelled as a pair of booleans. -/
structure EvaluationState where
  score_given : Bool
  profile_selected : Bool
deriving DecidableEq, Repr

def EvaluationState.NONE : EvaluationState := ⟨false, false⟩

def EvaluationState.COMPLETE : EvaluationState := ⟨true, true⟩

/-- The in-memory state of a DialogManager: `_active_dialogs`, `_evaluations`
and `_dialog_timeout_handlers` (a timer handle is represented by the presence
of its conversation id), plus the `length_threshold` option. The lobby and
the gateway references are not needed by the claims modelled here. -/
structure DMState where
  active_dialogs : List (Nat × Conversation)
  evaluations : List (Nat × (EvaluationState × EvaluationState))
  dialog_timeout_handlers : List Nat
  length_threshold : Nat
deriving DecidableEq, Repr

/-- Calls the dialog manager makes on the gateways, recorded as events. -/
inductive Event
  | sentMessage (conversation_id : Nat) (msg_id : Int) (text : String) (receiver : Peer)
  | topicSwitched (peer : Peer) (topic : Option String)
  | startedEvaluation (conversation_id : Nat) (peer : Peer) (options : List PersonProfile)
  | finishedConversation (conversation_id : Nat)
deriving DecidableEq, Repr

/-- DialogManager._unschedule_inactivity_timer. -/
def unscheduleInactivityTimer (cid : Nat) (timers : List Nat) : List Nat :=
  timers.filter (fun c => c ≠ cid)

/-- DialogManager._reset_inactivity_timer: cancel any pending timer for the
conversation and schedule a fresh one. -/
def resetInactivityTimer (st : DMState) (cid : Nat) : DMState :=
  { st with dialog_timeout_handlers :=
      cid :: unscheduleInactivityTimer cid st.dialog_timeout_handlers }

/-- Store an (in-place mutated, in Python) conversation back into
`_active_dialogs`. -/
def setConversation (st : DMState) (cid : Nat) (c : Conversation) : DMState :=
  { st with active_dialogs := mapInsert cid c st.active_dialogs }

/-- DialogManager._validate_conversation_and_peer (lines 291-298). -/
def validateConversationAndPeer (st : DMState) (cid : Nat) (peer : Peer) :
    Except String Conversation :=
  match mapLookup cid st.active_dialogs with
  | none => .error "There is no active conversation with this id"
  | some conversation =>
    if conversation.participants.any (fun p => p.peer == peer) then .ok conversation
    else .error "Peer is not a part of the conversation"

/-- Outcomes of the random draws made by `_initiate_final_evaluation`:
`pick` indices for `random.choice` over the distractor candidates and
`swap` flags for `random.shuffle` of the two-element option lists. -/
structure EvalChoiceOracle where
  pick1 : Nat
  pick2 : Nat
  swap1 : Bool
  swap2 : Bool
deriving Repr

/-- `random.choice(db_profiles(sentences__ne=true_profile.sentences) or
[true_profile])` — choose among profiles with different sentences, falling
back to the true profile when there are none. -/
def chooseDistractor (profiles : List PersonProfile) (true_profile : PersonProfile)
    (pick : Nat) : PersonProfile :=
  let candidates := profiles.filter (fun p => p.sentences != true_profile.sentences)
  candidates.getD (pick % candidates.length) true_profile

/-- `random.shuffle` of a two-element list, decided by the oracle bit. -/
def shuffleTwo (swap : Bool) (a b : PersonProfile) : List PersonProfile :=
  if swap then [b, a] else [a, b]

/-- The profile-option assignment loop of `_initiate_final_evaluation`
(lines 446-454): each participant gets the true profile of the other side
plus a freshly drawn distractor, shuffled. -/
def assignEvaluationOptions (profiles : List PersonProfile) (oracle : EvalChoiceOracle)
    (conversation : Conversation) : Conversation :=
  let true1 := conversation.participant2.assigned_profile
  let true2 := conversation.participant1.assigned_profile
  let options1 := shuffleTwo oracle.swap1 true1 (chooseDistractor profiles true1 oracle.pick1)
  let options2 := shuffleTwo oracle.swap2 true2 (chooseDistractor profiles true2 oracle.pick2)
  { conversation with
    participant1 := { conversation.participant1 with other_peer_profile_options := options1 },
    participant2 := { conversation.participant2 with other_peer_profile_options := options2 } }

/-- DialogManager._initiate_final_evaluation (lines 435-463). Resets the
inactivity timer, unconditionally re-initializes `_evaluations[cid]` to
(NONE, NONE), assigns each participant freshly drawn profile options and
sends `start_evaluation` to both gateways. -/
def initiateFinalEvaluation (profiles : List PersonProfile) (oracle : EvalChoiceOracle)
    (st : DMState) (cid : Nat) : Except String (DMState × List Event) :=
  match mapLookup cid st.active_dialogs with
  | none => .error "KeyError"
  | some conversation =>
    let st := resetInactivityTimer st cid
    let freshPair := (EvaluationState.NONE, EvaluationState.NONE)
    let st := { st with evaluations := mapInsert cid freshPair st.evaluations }
    let conversation := assignEvaluationOptions profiles oracle conversation
    let st := setConversation st cid conversation
    .ok (st, [Event.startedEvaluation cid conversation.participant1.peer
                conversation.participant1.other_peer_profile_options,
              Event.startedEvaluation cid conversation.participant2.peer
                conversation.participant2.other_peer_profile_options])

/-- The participant-marking loop of `trigger_dialog_end` (lines 176-178). -/
def markTriggeredDialogEnd (c : Conversation) (peer : Peer) : Conversation :=
  { c with
    participant1 :=
      if c.participant1.peer == peer then
        { c.participant1 with triggered_dialog_end := true }
      else c.participant1,
    participant2 :=
      if c.participant2.peer == peer then
        { c.participant2 with triggered_dialog_end := true }
      else c.participant2 }

/-- DialogManager.trigger_dialog_end (lines 170-180): validate, mark the
invoking participant, then run `_initiate_final_evaluation` unconditionally. -/
def triggerDialogEnd (profiles : List PersonProfile) (oracle : EvalChoiceOracle)
    (st : DMState) (cid : Nat) (peer : Peer) : Except String (DMState × List Event) := do
  let conversation ← validateConversationAndPeer st cid peer
  let st := setConversation st cid (markTriggeredDialogEnd conversation peer)
  initiateFinalEvaluation profiles oracle st cid

/-- DialogManager.on_message_received (lines 101-129). -/
def onMessageReceived (profiles : List PersonProfile) (oracle : EvalChoiceOracle)
    (st : DMState) (cid : Nat) (sender : Peer) (text : String) (time : Nat) :
    Except String (DMState × List Event × Int) := do
  let conversation ← validateConversationAndPeer st cid sender
  if (mapLookup cid st.evaluations).isSome then
    throw "Conversation is finished. Only evaluation is allowed"
  else
    let msg : Message := { msg_id := (conversation.messages.length : Int), text := text,
                           sender := sender, time := time, evaluation_score := none,
                           system := false }
    let conversation := { conversation with messages := conversation.messages ++ [msg] }
    let st := setConversation st cid conversation
    match conversation.participants.find? (fun p => p.peer != sender) with
    | none => throw "Could not find a receiver for the message"
    | some receiver =>
      let events := [Event.sentMessage cid msg.msg_id msg.text receiver.peer]
      if st.length_threshold ≤ conversation.messages.length then
        let (st', events') ← triggerDialogEnd profiles oracle st cid sender
        return (st', events ++ events', msg.msg_id)
      else
        return (resetInactivityTimer st cid, events, msg.msg_id)

/-- The in-place `msg.evaluation_score = score` mutation: only the first
message matching the id (the one `next` found) is updated. -/
def updateFirstMessage (target : Int) (score : Int) : List Message → List Message
  | [] => []
  | m :: rest =>
    if m.msg_id == target then { m with evaluation_score := some score } :: rest
    else m :: updateFirstMessage target score rest

/-- DialogManager.on_message_evaluated (lines 131-149). -/
def onMessageEvaluated (st : DMState) (cid : Nat) (evaluator : Peer) (score : Int)
    (msg_id_arg : Option Int) : Except String DMState := do
  let conversation ← validateConversationAndPeer st cid evaluator
  if score > 1 ∨ score < 0 then
    throw "Score should be within a range 0 to 1"
  else
    let msg_id : Int :=
      match msg_id_arg with
      | some m => m
      | none =>
        match conversation.messages.reverse.find? (fun m => m.sender != evaluator) with
        | some m => m.msg_id
        | none => -1
    match conversation.messages.find? (fun m => m.msg_id == msg_id) with
    | none => throw "Could not find a message with this id"
    | some msg =>
      if msg.sender == evaluator then
        throw "Could not find evaluate own messages"
      else
        let conversation := { conversation with
          messages := updateFirstMessage msg_id score conversation.messages }
        return setConversation st cid conversation

/-- DialogManager.switch_to_next_topic (lines 151-168). The Python method
runs `conversation.next_topic()` under `if`, so the body executes exactly
when the returned int is non-zero; the method has no return statement, hence
the `Option Bool` result is always `none`. Gateway notifications carry
`topics.get? index` since `topics[index]` may be out of range in the source. -/
def switchToNextTopic (st : DMState) (cid : Nat) (peer : Peer) (now : Nat) :
    Except String (DMState × List Event × Option Bool) := do
  let conversation ← validateConversationAndPeer st cid peer
  let (r, conversation) := conversation.next_topic
  let st := setConversation st cid conversation
  if r != 0 then
    let index := conversation.active_topic_index
    let msg : Message := { msg_id := (conversation.messages.length : Int),
                           text := "Switched to topic with index " ++ toString index,
                           sender := peer, time := now, evaluation_score := none,
                           system := true }
    let conversation := { conversation with messages := conversation.messages ++ [msg] }
    let st := setConversation st cid conversation
    let events := conversation.participants.map
      (fun cp => Event.topicSwitched cp.peer (cp.assigned_profile.topics.get? index))
    return (st, events, none)
  else
    return (st, [], none)

/-- The `check(i)` closure of `_handle_evaluation_state` (lines 282-284):
a side counts as complete when its peer is a bot or its state is COMPLETE. -/
def sideComplete (p : ConversationPeer) (e : EvaluationState) : Bool :=
  p.peer.isBot || e == EvaluationState.COMPLETE

/-- DialogManager._cleanup_conversation (lines 420-433): notify the gateways,
try to save the conversation swallowing the empty-conversation validation
error, unschedule the timer, and delete the dialog and evaluation entries. -/
def cleanupConversation (st : DMState) (cid : Nat) :
    Except String (DMState × List Event × Option Conversation) :=
  match mapLookup cid st.active_dialogs, mapLookup cid st.evaluations with
  | some conversation, some _ =>
    let saved := conversation.clean.toOption
    let st := { st with
      dialog_timeout_handlers := unscheduleInactivityTimer cid st.dialog_timeout_handlers,
      active_dialogs := mapErase cid st.active_dialogs,
      evaluations := mapErase cid st.evaluations }
    .ok (st, [Event.finishedConversation cid], saved)
  | _, _ => .error "KeyError"

/-- DialogManager._handle_evaluation_state (lines 279-289). -/
def handleEvaluationState (st : DMState) (cid : Nat) :
    Except String (DMState × List Event × Option Conversation) :=
  match mapLookup cid st.active_dialogs, mapLookup cid st.evaluations with
  | some conversation, some es =>
    let completed := sideComplete conversation.participant1 es.1 &&
                     sideComplete conversation.participant2 es.2
    if completed then cleanupConversation st cid else .ok (st, [], none)
  | _, _ => .error "KeyError"

/-! ### Bot matching (DialogManager._start_dialog_with_bot, lines 347-365) -/

/-- A stored Bot record (src/model/bot.py); the token is abstracted to Nat. -/
structure BotRecord where
  token : Nat
  banned : Bool
deriving DecidableEq, Repr

/-- A stored User record (src/model/user.py) with the fields bot matching
reads: identity, ban flag and the optional assigned test bot token. -/
structure StoreUser where
  id : Nat
  banned : Bool
  assigned_test_bot : Option Nat
deriving DecidableEq, Repr

/-- The database contents bot matching queries: the Bot collection and the
BannedPair collection (src/model/banned_pair.py), as (user id, bot token). -/
structure Store where
  bots : List BotRecord
  banned_pairs : List (Nat × Nat)
deriving DecidableEq, Repr

/-- The `Bot.objects(...)` queryset of `_start_dialog_with_bot`: non-banned
bots, restricted to the assigned test bot token when one is set. -/
def botCandidates (store : Store) (user : StoreUser) : List BotRecord :=
  match user.assigned_test_bot with
  | some tok => store.bots.filter (fun b => !b.banned && b.token == tok)
  | none => store.bots.filter (fun b => !b.banned)

/-- `BannedPair.objects(user=user, bot=bot).count()`. -/
def bannedPairCount (store : Store) (user : StoreUser) (bot : BotRecord) : Nat :=
  (store.banned_pairs.filter (fun p => p.1 == user.id && p.2 == bot.token)).length

/-- The `while not found` retry loop of `_start_dialog_with_bot`:
`bot = bots[random.randrange(bots_count)]` is modelled by an oracle giving
the random index drawn at each step, and `fuel` bounds how many iterations
we observe (`none` means the loop is still spinning after `fuel` draws). -/
def findBotLoop (store : Store) (user : StoreUser) (bots : List BotRecord)
    (oracle : Nat → Nat) (step : Nat) : Nat → Option BotRecord
  | 0 => none
  | fuel + 1 =>
    match bots.get? (oracle step % bots.length) with
    | none => none
    | some bot =>
      if bannedPairCount store user bot = 0 then some bot
      else findBotLoop store user bots oracle (step + 1) fuel

inductive MatchOutcome
  | peerNotFound
  | matched (bot : BotRecord)
  | stillRetrying
deriving DecidableEq, Repr

/-- DialogManager._start_dialog_with_bot (lines 347-365), with the bots
gateway present: PEER_NOT_FOUND is notified only when the candidate queryset
is empty, otherwise the retry loop runs; `stillRetrying` records that the
loop has not produced a bot within `fuel` draws. -/
def startDialogWithBot (store : Store) (user : StoreUser) (oracle : Nat → Nat)
    (fuel : Nat) : MatchOutcome :=
  let bots := botCandidates store user
  if bots.length = 0 then .peerNotFound
  else
    match findBotLoop store user bots oracle 0 fuel with
    | some b => .matched b
    | none => .stillRetrying

/-! ### BotsGateway trigram guard (conversation_gateways.py lines 770-793,
888-891, 907-922) -/

/-- BotsGateway.TrigramsStorage: the n-grams of the assigned profile
description plus the bad-message streak counter. Texts are modelled after
the `_text_to_trigrams` preprocessing as lists of words. -/
structure TrigramsStorage where
  trigrams : List (List String)
  bad_messages_in_a_row : Nat
deriving DecidableEq, Repr

/-- TrigramsStorage._text_to_trigrams on a preprocessed word list: windows
of 5 words (the whole list when it has at most 5 words). -/
def textToTrigrams (words : List String) : List (List String) :=
  let n_gr := 5
  if words.length ≤ n_gr then [words]
  else (List.range (words.length - n_gr)).map (fun i => (words.drop i).take n_gr)

/-- TrigramsStorage.__init__(profile_description). -/
def initTrigramsStorage (profile_words : List String) : TrigramsStorage :=
  { trigrams := textToTrigrams profile_words, bad_messages_in_a_row := 0 }

/-- TrigramsStorage.is_message_ok: the message leaks when its n-gram set
intersects the profile n-gram set. -/
def TrigramsStorage.is_message_ok (s : TrigramsStorage) (words : List String) : Bool :=
  (textToTrigrams words).all (fun g => !(s.trigrams.contains g))

/-- BotsGateway._validate_trigrams (lines 907-922). Returns the updated
storage, whether dialog end was forced, and whether
ProfileTrigramDetectedInMessageError was raised. -/
def validateTrigrams (threshold : Nat) (s : TrigramsStorage) (words : List String) :
    TrigramsStorage × Bool × Bool :=
  if !(s.is_message_ok words) then
    let s' := { s with bad_messages_in_a_row := s.bad_messages_in_a_row + 1 }
    (s', decide (threshold ≤ s'.bad_messages_in_a_row), true)
  else
    ({ s with bad_messages_in_a_row := 0 }, false, false)

/-- The guard call site in BotsGateway.on_message_received (lines 888-891):
`_validate_trigrams` runs only when the configured threshold is positive. -/
def botGuardOnMessage (threshold : Nat) (s : TrigramsStorage) (words : List String) :
    TrigramsStorage × Bool × Bool :=
  if 0 < threshold then validateTrigrams threshold s words else (s, false, false)

/-! ### BotsGateway.get_updates (conversation_gateways.py lines 842-863) -/

/-- An envelope queued for a bot (the dict built by `_get_message_dict`,
abstracted to the fields the claims need). -/
structure QueuedMessage where
  text : String
  conversation_id : Nat
  message_id : Int
deriving DecidableEq, Repr

/-- The per-bot mailbox: persistent `last_update_id` plus the FIFO queue. -/
structure BotState where
  last_update_id : Nat
  queue : List QueuedMessage
deriving DecidableEq, Repr

structure Update where
  update_id : Nat
  message : QueuedMessage
deriving DecidableEq, Repr

/-- The limit normalization of `get_updates`: `limit = limit or 100` (so a
passed 0 becomes 100, like an omitted limit) followed by
`limit = min(100, max(limit, 1))`. -/
def effectiveLimit (limit : Option Int) : Int :=
  let l : Int :=
    match limit with
    | none => 100
    | some v => if v = 0 then 100 else v
  min 100 (max l 1)

/-- `enumerate(messages)` with update ids offset by the bot's
`last_update_id`. -/
def numberFrom (base : Nat) : List QueuedMessage → List Update
  | [] => []
  | m :: rest => ⟨base, m⟩ :: numberFrom (base + 1) rest

/-- BotsGateway.get_updates: wait for the first queued envelope (an empty
queue after the timeout yields no messages), drain non-blockingly up to
`limit - 1` more in FIFO order, number them from `last_update_id`, and
persist `last_update_id + n`. The timeout governs only real-time blocking,
which the embedding abstracts away: the queue field holds whatever is
available when the wait completes. -/
def getUpdates (bot : BotState) (_timeout : Option Int) (limit : Option Int) :
    List Update × BotState :=
  let lim := (effectiveLimit limit).toNat
  let msgs := bot.queue.take lim
  (numberFrom bot.last_update_id msgs,
   { last_update_id := bot.last_update_id + msgs.length, queue := bot.queue.drop lim })

/-- A bot mailbox trace: interleaved enqueues (start/send/evaluation
envelopes) and long polls. -/
inductive BotEvent
  | enqueue (m : QueuedMessage)
  | poll (timeout : Option Int) (limit : Option Int)

/-- Run a trace, collecting every update ever returned to the bot in order. -/
def runTrace : BotState → List BotEvent → BotState × List Update
  | bot, [] => (bot, [])
  | bot, .enqueue m :: rest => runTrace { bot with queue := bot.queue ++ [m] } rest
  | bot, .poll t l :: rest =>
    let polled := getUpdates bot t l
    let remaining := runTrace polled.2 rest
    (remaining.1, polled.1 ++ remaining.2)

/-! ### The msg-id density invariant -/

/-- The invariant of testable property 1: `messages[i].msg_id == i` for
every index, phrased decidably over a message list. -/
def msgIdsDense (ms : List Message) : Bool :=
  (List.range ms.length).all (fun i => ((ms.get? i).map (fun m => m.msg_id)) == some (i : Int))

/-- The invariant holds for every live conversation of the manager state. -/
def allDialogsDense (st : DMState) : Bool :=
  st.active_dialogs.all (fun p => msgIdsDense p.2.messages)

/-! ### Concrete fixtures for witnesses and counterexamples -/

def profileA : PersonProfile := { sentences := ["pa"], topics := ["t0", "t1"] }

def profileB : PersonProfile := { sentences := ["pb"], topics := ["u0", "u1"] }

def profileOneTopic : PersonProfile := { sentences := ["pc"], topics := ["t0"] }

def mkPeer (p : Peer) (profile : PersonProfile) : ConversationPeer :=
  { peer := p, assigned_profile := profile, dialog_evaluation_score := none,
    other_peer_profile_options := [], other_peer_profile_selected := none,
    other_peer_profile_selected_parts := [], triggered_dialog_end := false }

/-- A live user-vs-bot conversation with the given messages. -/
def mkConv (msgs : List Message) : Conversation :=
  { conversation_id := 1, participant1 := mkPeer (.user 1) profileA,
    participant2 := mkPeer (.bot 2) profileB, messages := msgs,
    start_time := none, end_time := none, active_topic_index := 0,
    messages_to_switch_topic := 0, messages_to_switch_topic_left := 0 }

def mkMsg (i : Int) (s : Peer) (t : Nat) : Message :=
  { msg_id := i, text := "m", sender := s, time := t, evaluation_score := none,
    system := false }

def theOracle : EvalChoiceOracle := { pick1 := 0, pick2 := 0, swap1 := false, swap2 := false }

/-- A conversation that already entered the evaluation phase with a
partially completed evaluation (participant 1 has given a score). -/
def c1_st : DMState :=
  { active_dialogs := [(1, mkConv [mkMsg 0 (.user 1) 3, mkMsg 1 (.bot 2) 5])],
    evaluations := [(1, ({ score_given := true, profile_selected := false },
                         EvaluationState.NONE))],
    dialog_timeout_handlers := [1], length_threshold := 100 }

/-- A user whose assigned test bot forms a banned pair with them, together
with a store holding exactly that (non-banned) bot. -/
def c2_user : StoreUser := { id := 0, banned := false, assigned_test_bot := some 7 }

def c2_store : Store := { bots := [{ token := 7, banned := false }], banned_pairs := [(0, 7)] }

/-- A dialog-phase state whose conversation has a next topic available. -/
def c3_st : DMState :=
  { active_dialogs := [(1, mkConv [])], evaluations := [],
    dialog_timeout_handlers := [1], length_threshold := 100 }

/-- A conversation whose participants have a single topic each, so no next
topic exists. -/
def convOneTopic : Conversation :=
  { conversation_id := 1, participant1 := mkPeer (.user 1) profileOneTopic,
    participant2 := mkPeer (.bot 2) profileOneTopic, messages := [],
    start_time := none, end_time := none, active_topic_index := 0,
    messages_to_switch_topic := 0, messages_to_switch_topic_left := 0 }

def c3b_st : DMState :=
  { active_dialogs := [(1, convOneTopic)], evaluations := [],
    dialog_timeout_handlers := [1], length_threshold := 100 }

/-- A dialog-phase state with two exchanged messages. -/
def c8_st : DMState :=
  { active_dialogs := [(1, mkConv [mkMsg 0 (.user 1) 3, mkMsg 1 (.bot 2) 5])],
    evaluations := [], dialog_timeout_handlers := [1], length_threshold := 100 }

/-- The same two-message conversation, already in the evaluation phase. -/
def c10_st : DMState :=
  { active_dialogs := [(1, mkConv [mkMsg 0 (.user 1) 3, mkMsg 1 (.bot 2) 5])],
    evaluations := [(1, (EvaluationState.NONE, EvaluationState.NONE))],
    dialog_timeout_handlers := [1], length_threshold := 100 }

/-- Evaluation state where the human side is COMPLETE; the other side is a
bot and therefore counts as complete regardless of its state. -/
def c5_st : DMState :=
  { active_dialogs := [(1, mkConv [mkMsg 0 (.user 1) 3, mkMsg 1 (.bot 2) 5])],
    evaluations := [(1, (EvaluationState.COMPLETE, EvaluationState.NONE))],
    dialog_timeout_handlers := [1], length_threshold := 100 }

/-- An abandoned (empty) conversation in the evaluation phase. -/
def c9_st : DMState :=
  { active_dialogs := [(1, mkConv [])],
    evaluations := [(1, (EvaluationState.COMPLETE, EvaluationState.COMPLETE))],
    dialog_timeout_handlers := [1], length_threshold := 100 }

/-- The manager state after the user sends "hi" at time 9 in `c8_st`. -/
def c4_state_after : DMState :=
  { active_dialogs := [(1, mkConv [mkMsg 0 (Peer.user 1) 3, mkMsg 1 (Peer.bot 2) 5,
      { msg_id := 2, text := "hi", sender := Peer.user 1, time := 9,
        evaluation_score := none, system := false }])],
    evaluations := [], dialog_timeout_handlers := [1], length_threshold := 100 }

/-- A bot mailbox with two queued envelopes. -/
def c6_bot : BotState :=
  { last_update_id := 5,
    queue := [{ text := "a", conversation_id := 1, message_id := 0 },
              { text := "b", conversation_id := 1, message_id := 1 }] }

deriving instance DecidableEq for Except

/-! ## Theorems -/

theorem exceptBindOk {ε α β : Type} (a : α) (f : α → Except ε β) :
    (Except.ok a : Except ε α) >>= f = f a := rfl

theorem exceptBindError {ε α β : Type} (e : ε) (f : α → Except ε β) :
    (Except.error e : Except ε α) >>= f = Except.error e := rfl

theorem exceptMapOk {ε α β : Type} (f : α → β) (a : α) :
    f <$> (Except.ok a : Except ε α) = Except.ok (f a) := rfl

theorem mapLookup_mapErase_self {α : Type} (k : Nat) (m : List (Nat × α)) :
    mapLookup k (mapErase k m) = none := by
  induction m with
  | nil => rfl
  | cons p rest ih =>
    by_cases h : p.1 = k
    · simpa [mapErase, h] using ih
    · simp [mapErase, h, mapLookup, ih]

theorem mapLookup_mapErase_ne {α : Type} (k k' : Nat) (m : List (Nat × α)) (h : k ≠ k') :
    mapLookup k' (mapErase k m) = mapLookup k' m := by
  induction m with
  | nil => rfl
  | cons p rest ih =>
    by_cases hp : p.1 = k
    · have hne : p.1 ≠ k' := fun hc => h (hp ▸ hc)
      rw [mapErase, if_pos hp, ih, mapLookup, if_neg hne]
    · rw [mapErase, if_neg hp, mapLookup, mapLookup]
      by_cases hq : p.1 = k'
      · rw [if_pos hq, if_pos hq]
      · rw [if_neg hq, if_neg hq, ih]

theorem mapLookup_mapInsert_self {α : Type} (k : Nat) (v : α) (m : List (Nat × α)) :
    mapLookup k (mapInsert k v m) = some v := by
  simp [mapInsert, mapLookup]

theorem mapLookup_mapInsert_ne {α : Type} (k k' : Nat) (v : α) (m : List (Nat × α)) (h : k ≠ k') :
    mapLookup k' (mapInsert k v m) = mapLookup k' m := by
  simp [mapInsert, mapLookup, fun hh => h hh, mapLookup_mapErase_ne k k' m h]

theorem keyCount_mapInsert_self {α : Type} (k : Nat) (v : α) (m : List (Nat × α)) :
    keyCount k (mapInsert k v m) = 1 := by
  have herase : keyCount k (mapErase k m) = 0 := by
    induction m with
    | nil => rfl
    | cons p rest ih =>
      by_cases h : p.1 = k
      · simpa [mapErase, h] using ih
      · simpa [mapErase, h, keyCount, List.filter] using ih
  simp [mapInsert, keyCount, List.filter] at herase ⊢
  simpa [keyCount] using herase

/-- C2: the spec requires bot matching to terminate for every store state,
failing with PEER_NOT_FOUND when no suitable bot exists. In the code the
PEER_NOT_FOUND branch fires only when the candidate queryset is empty; with
an assigned test bot that forms a banned pair with the user the candidate
list is the singleton assigned bot, every draw of the retry loop samples it
again, and the loop never exits: for every random oracle and every number of
observed iterations the loop is still retrying and PEER_NOT_FOUND is never
reported. -/
theorem bot_matching_spins_on_banned_test_pair :
    botCandidates c2_store c2_user = [{ token := 7, banned := false }]
    ∧ (∀ (oracle : Nat → Nat) (step fuel : Nat),
        findBotLoop c2_store c2_user (botCandidates c2_store c2_user) oracle step fuel = none)
    ∧ (∀ (oracle : Nat → Nat) (fuel : Nat),
        startDialogWithBot c2_store c2_user oracle fuel = MatchOutcome.stillRetrying) := by
  have hc : botCandidates c2_store c2_user = [{ token := 7, banned := false }] := by decide
  have hloop : ∀ (oracle : Nat → Nat) (step fuel : Nat),
      findBotLoop c2_store c2_user [{ token := 7, banned := false }] oracle step fuel = none := by
    intro oracle step fuel
    induction fuel generalizing step with
    | zero => rfl
    | succ n ih =>
      have hcnt : bannedPairCount c2_store c2_user { token := 7, banned := false } ≠ 0 := by
        decide
      simp only [findBotLoop, List.length_singleton, Nat.mod_one]
      simpa [hcnt] using ih (step + 1)
  refine ⟨hc, ?_, ?_⟩
  · intro oracle step fuel
    rw [hc]
    exact hloop oracle step fuel
  · intro oracle fuel
    simp only [startDialogWithBot, hc]
    rw [hloop oracle 0 fuel]
    rfl

/-- C3: the spec says `switch_to_next_topic` appends a system message,
notifies both gateways and returns a bool exactly when the topic switch
happened. In the code `conversation.next_topic()` returns the int 0 on a
successful switch and a non-zero value otherwise, so the `if` body runs
exactly when the switch did NOT happen, and the method returns None either
way: on a conversation with a next topic available the index advances but no
message is appended and nobody is notified, while on a conversation without
a next topic a synthetic message is appended and both gateways are
notified. -/
theorem switch_topic_guard_inverted :
    (mkConv []).next_topic = (0, { mkConv [] with active_topic_index := 1 })
    ∧ (switchToNextTopic c3_st 1 (Peer.user 1) 5).map (fun r => (r.2.1, r.2.2))
      = Except.ok ([], none)
    ∧ (switchToNextTopic c3_st 1 (Peer.user 1) 5).map
        (fun r => (mapLookup 1 r.1.active_dialogs).map
          (fun c => (c.active_topic_index, c.messages.length)))
      = Except.ok (some (1, 0))
    ∧ convOneTopic.next_topic = (-1, convOneTopic)
    ∧ (switchToNextTopic c3b_st 1 (Peer.user 1) 5).map
        (fun r => (r.2.1.length, r.2.2,
          (mapLookup 1 r.1.active_dialogs).map
            (fun c => (c.active_topic_index, c.messages.length))))
      = Except.ok (2, none, some (0, 1)) := by
  decide

/-- C7: for each (conversation, bot) trigram storage, a leaking message
increments the bad streak and a clean one resets it to 0; dialog end is
forced exactly when the guard is enabled, the message leaks, and the
incremented streak reaches the threshold; a threshold of 0 disables the
guard completely (the message is not even checked). -/
theorem trigram_guard_streak (threshold : Nat) (s : TrigramsStorage) (words : List String) :
    botGuardOnMessage 0 s words = (s, false, false)
    ∧ (0 < threshold → s.is_message_ok words = false →
        (botGuardOnMessage threshold s words).1.bad_messages_in_a_row
          = s.bad_messages_in_a_row + 1)
    ∧ (0 < threshold → s.is_message_ok words = true →
        (botGuardOnMessage threshold s words).1.bad_messages_in_a_row = 0)
    ∧ ((botGuardOnMessage threshold s words).2.1 = true ↔
        0 < threshold ∧ s.is_message_ok words = false
          ∧ threshold ≤ s.bad_messages_in_a_row + 1) := by
  refine ⟨by simp [botGuardOnMessage], ?_, ?_, ?_⟩
  · intro ht hok
    simp [botGuardOnMessage, ht, validateTrigrams, hok]
  · intro ht hok
    simp [botGuardOnMessage, ht, validateTrigrams, hok]
  · by_cases ht : 0 < threshold
    · by_cases hok : s.is_message_ok words = true
      · simp [botGuardOnMessage, ht, validateTrigrams, hok]
      · have hok' : s.is_message_ok words = false := by
          cases h : s.is_message_ok words
          · rfl
          · exact absurd h hok
        simp [botGuardOnMessage, ht, validateTrigrams, hok']
    · simp [botGuardOnMessage, ht]

/-- C7 witness: with threshold 2 and a storage already at streak 1, a
leaking three-word message increments the streak to 2 and forces dialog
end. -/
theorem trigram_guard_streak_witness :
    (0 < 2
      ∧ TrigramsStorage.is_message_ok
          { trigrams := [["a", "b", "c"]], bad_messages_in_a_row := 1 } ["a", "b", "c"] = false)
    ∧ (botGuardOnMessage 2
        { trigrams := [["a", "b", "c"]], bad_messages_in_a_row := 1 }
        ["a", "b", "c"]).1.bad_messages_in_a_row = 1 + 1
    ∧ (botGuardOnMessage 2
        { trigrams := [["a", "b", "c"]], bad_messages_in_a_row := 1 }
        ["a", "b", "c"]).2.1 = true := by
  refine ⟨⟨by decide, by decide⟩, ?_, ?_⟩
  · exact (trigram_guard_streak 2 _ _).2.1 (by decide) (by decide)
  · exact (trigram_guard_streak 2 _ _).2.2.2.mpr ⟨by decide, by decide, by decide⟩

/-- C1 counterexample: with conversation 1 already in the evaluation phase
and participant 1 having SCORE_GIVEN, a further `trigger_dialog_end` call
succeeds but resets both evaluation states to NONE — the call is not a
no-op for evaluation state. -/
theorem trigger_dialog_end_resets_evaluation_state :
    mapLookup 1 c1_st.evaluations
      = some ({ score_given := true, profile_selected := false }, EvaluationState.NONE)
    ∧ (triggerDialogEnd [] theOracle c1_st 1 (Peer.user 1)).map
        (fun r => mapLookup 1 r.1.evaluations)
      = Except.ok (some (EvaluationState.NONE, EvaluationState.NONE)) := by
  decide

/-- C6 counterexample: `get_updates` computes `limit or 100` before
clamping, so a passed limit of 0 becomes 100 rather than being clamped to 1:
on a mailbox with two queued envelopes, a poll with limit 0 returns both
messages instead of the single message a clamp to [1,100] would allow. -/
theorem get_updates_limit_zero_not_clamped :
    effectiveLimit (some 0) = 100
    ∧ min (100 : Int) (max 0 1) = 1
    ∧ (getUpdates c6_bot none (some 0)).1.length = 2 := by
  decide

/-- C1 (amended): a trigger_dialog_end call on an active conversation that
is already in the evaluation phase remains legal and keeps exactly one
evaluation entry for the conversation, but it re-initializes that entry:
both sides' EvaluationStates are reset to NONE, freshly drawn profile
options are assigned, and start_evaluation is re-sent to both gateways. -/
theorem trigger_dialog_end_reinitializes_evaluation
    (profiles : List PersonProfile) (oracle : EvalChoiceOracle) (st : DMState)
    (cid : Nat) (peer : Peer) (conv : Conversation)
    (es : EvaluationState × EvaluationState)
    (hval : validateConversationAndPeer st cid peer = .ok conv)
    (_hev : mapLookup cid st.evaluations = some es) :
    (triggerDialogEnd profiles oracle st cid peer).map
        (fun r => (mapLookup cid r.1.evaluations, keyCount cid r.1.evaluations))
      = Except.ok (some (EvaluationState.NONE, EvaluationState.NONE), 1)
    ∧ (triggerDialogEnd profiles oracle st cid peer).map
        (fun r =>
          match mapLookup cid r.1.active_dialogs with
          | some c =>
            r.2 == [Event.startedEvaluation cid c.participant1.peer
                      c.participant1.other_peer_profile_options,
                    Event.startedEvaluation cid c.participant2.peer
                      c.participant2.other_peer_profile_options]
          | none => false)
      = Except.ok true := by
  have h1 : triggerDialogEnd profiles oracle st cid peer
      = initiateFinalEvaluation profiles oracle
          (setConversation st cid (markTriggeredDialogEnd conv peer)) cid := by
    simp only [triggerDialogEnd, hval]
    rfl
  rw [h1]
  simp only [initiateFinalEvaluation, setConversation, mapLookup_mapInsert_self]
  constructor
  · simp [Except.map, resetInactivityTimer, mapLookup_mapInsert_self, keyCount_mapInsert_self]
  · simp [Except.map, mapLookup_mapInsert_self]

/-- C1 witness for the amended theorem, at the concrete evaluation-phase
state `c1_st` where participant 1 already has SCORE_GIVEN. -/
theorem trigger_dialog_end_reinitializes_evaluation_witness :
    (triggerDialogEnd [] theOracle c1_st 1 (Peer.user 1)).map
        (fun r => (mapLookup 1 r.1.evaluations, keyCount 1 r.1.evaluations))
      = Except.ok (some (EvaluationState.NONE, EvaluationState.NONE), 1)
    ∧ (triggerDialogEnd [] theOracle c1_st 1 (Peer.user 1)).map
        (fun r =>
          match mapLookup 1 r.1.active_dialogs with
          | some c =>
            r.2 == [Event.startedEvaluation 1 c.participant1.peer
                      c.participant1.other_peer_profile_options,
                    Event.startedEvaluation 1 c.participant2.peer
                      c.participant2.other_peer_profile_options]
          | none => false)
      = Except.ok true :=
  trigger_dialog_end_reinitializes_evaluation [] theOracle c1_st 1 (Peer.user 1)
    (mkConv [mkMsg 0 (Peer.user 1) 3, mkMsg 1 (Peer.bot 2) 5])
    ({ score_given := true, profile_selected := false }, EvaluationState.NONE)
    (by decide) (by decide)

/-- C9: `Conversation.clean` (run by save) fails with a validation error iff
the conversation has no messages; a successfully cleaned conversation gets
`start_time` equal to the minimum and `end_time` equal to the maximum of its
message times; and `_cleanup_conversation` swallows the empty-conversation
save failure (nothing is persisted) while still tearing the conversation
down. -/
theorem conversation_save_validation
    (c : Conversation) (st : DMState) (cid : Nat) (conv : Conversation)
    (es : EvaluationState × EvaluationState) :
    ((∃ e, c.clean = .error e) ↔ c.messages = [])
    ∧ (∀ c', c.clean = .ok c' →
        ∃ tmin tmax, c'.start_time = some tmin ∧ c'.end_time = some tmax
          ∧ tmin ∈ c.messages.map (fun m => m.time)
          ∧ tmax ∈ c.messages.map (fun m => m.time)
          ∧ ∀ t ∈ c.messages.map (fun m => m.time), tmin ≤ t ∧ t ≤ tmax)
    ∧ (mapLookup cid st.active_dialogs = some conv →
        mapLookup cid st.evaluations = some es →
        conv.messages = [] →
        (cleanupConversation st cid).map
            (fun r => (r.2.2, mapLookup cid r.1.active_dialogs,
                       mapLookup cid r.1.evaluations,
                       decide (cid ∈ r.1.dialog_timeout_handlers)))
          = Except.ok (none, none, none, false)) := by
  refine ⟨?_, ?_, ?_⟩
  · constructor
    · rintro ⟨e, he⟩
      by_cases hm : c.messages.isEmpty
      · exact List.isEmpty_iff.mp hm
      · simp [Conversation.clean, hm] at he
    · intro hm
      refine ⟨"Conversation can not be empty", ?_⟩
      simp [Conversation.clean, hm]
  · intro c' hc'
    by_cases hm : c.messages.isEmpty
    · simp [Conversation.clean, hm] at hc'
    · simp only [Conversation.clean, hm, Bool.false_eq_true, if_false, Except.ok.injEq] at hc'
      have hne : c.messages.map (fun m => m.time) ≠ [] := by
        intro h
        exact hm (List.isEmpty_iff.mpr (List.map_eq_nil_iff.mp h))
      obtain ⟨tmin, hmin⟩ : ∃ a, (c.messages.map (fun m => m.time)).min? = some a := by
        cases h : (c.messages.map (fun m => m.time)).min? with
        | none => exact absurd (List.min?_eq_none_iff.mp h) hne
        | some a => exact ⟨a, rfl⟩
      obtain ⟨tmax, hmax⟩ : ∃ a, (c.messages.map (fun m => m.time)).max? = some a := by
        cases h : (c.messages.map (fun m => m.time)).max? with
        | none => exact absurd (List.max?_eq_none_iff.mp h) hne
        | some a => exact ⟨a, rfl⟩
      have hminp := List.min?_eq_some_iff'.mp hmin
      have hmaxp := List.max?_eq_some_iff'.mp hmax
      refine ⟨tmin, tmax, ?_, ?_, hminp.1, hmaxp.1, ?_⟩
      · rw [← hc', hmin]
      · rw [← hc', hmax]
      · exact fun t ht => ⟨hminp.2 t ht, hmaxp.2 t ht⟩
  · intro hconv hev hm
    simp only [cleanupConversation, hconv, hev]
    have hclean : conv.clean = .error "Conversation can not be empty" := by
      simp [Conversation.clean, hm]
    simp [Except.map, Except.toOption, hclean, mapLookup_mapErase_self,
          unscheduleInactivityTimer, List.mem_filter]

/-- C9 witness: at a two-message conversation the cleaned document carries
(min, max) = (3, 5), and at the abandoned empty conversation of `c9_st`
cleanup persists nothing yet removes the dialog, evaluation and timer. -/
theorem conversation_save_validation_witness :
    ((mkConv [mkMsg 0 (Peer.user 1) 3, mkMsg 1 (Peer.bot 2) 5]).clean.map
        (fun c => (c.start_time, c.end_time)) = Except.ok (some 3, some 5))
    ∧ (cleanupConversation c9_st 1).map
        (fun r => (r.2.2, mapLookup 1 r.1.active_dialogs,
                   mapLookup 1 r.1.evaluations,
                   decide (1 ∈ r.1.dialog_timeout_handlers)))
      = Except.ok (none, none, none, false) := by
  refine ⟨by decide, ?_⟩
  exact (conversation_save_validation (mkConv []) c9_st 1 (mkConv [])
    (EvaluationState.COMPLETE, EvaluationState.COMPLETE)).2.2
    (by decide) (by decide) (by decide)

/-- C5: during evaluation a side counts as complete iff its peer is a bot or
its EvaluationState equals SCORE_GIVEN|PROFILE_SELECTED; whenever both sides
are complete, `_handle_evaluation_state` runs the cleanup, after which the
conversation id is absent from active dialogs, absent from evaluations and
its scheduled timer is removed; when they are not both complete, nothing
changes. -/
theorem evaluation_completion_triggers_cleanup
    (st : DMState) (cid : Nat) (conv : Conversation)
    (es : EvaluationState × EvaluationState)
    (hconv : mapLookup cid st.active_dialogs = some conv)
    (hev : mapLookup cid st.evaluations = some es) :
    ((sideComplete conv.participant1 es.1 && sideComplete conv.participant2 es.2) = true →
      handleEvaluationState st cid = cleanupConversation st cid
      ∧ (handleEvaluationState st cid).map
          (fun r => (r.2.1, mapLookup cid r.1.active_dialogs,
                     mapLookup cid r.1.evaluations,
                     decide (cid ∈ r.1.dialog_timeout_handlers)))
        = Except.ok ([Event.finishedConversation cid], none, none, false))
    ∧ ((sideComplete conv.participant1 es.1 && sideComplete conv.participant2 es.2) = false →
        handleEvaluationState st cid = .ok (st, [], none)) := by
  constructor
  · intro hcomp
    have h1 : handleEvaluationState st cid = cleanupConversation st cid := by
      simp [handleEvaluationState, hconv, hev, hcomp]
    refine ⟨h1, ?_⟩
    rw [h1]
    simp [cleanupConversation, hconv, hev, Except.map, mapLookup_mapErase_self,
          unscheduleInactivityTimer, List.mem_filter]
  · intro hcomp
    simp [handleEvaluationState, hconv, hev, hcomp]

/-- C5 witness: at `c5_st` the human side is COMPLETE and the other peer is
a bot, so both sides are complete and handling the evaluation state performs
the cleanup. -/
theorem evaluation_completion_triggers_cleanup_witness :
    handleEvaluationState c5_st 1 = cleanupConversation c5_st 1
    ∧ (handleEvaluationState c5_st 1).map
        (fun r => (r.2.1, mapLookup 1 r.1.active_dialogs,
                   mapLookup 1 r.1.evaluations,
                   decide (1 ∈ r.1.dialog_timeout_handlers)))
      = Except.ok ([Event.finishedConversation 1], none, none, false) :=
  (evaluation_completion_triggers_cleanup c5_st 1
    (mkConv [mkMsg 0 (Peer.user 1) 3, mkMsg 1 (Peer.bot 2) 5])
    (EvaluationState.COMPLETE, EvaluationState.NONE)
    (by decide) (by decide)).1 (by decide)

/-- C10: once a conversation is in the evaluation phase,
`on_message_received` rejects any new chat message with an error, while
`on_message_evaluated` performs no phase check at all: its outcome (the same
error, or the same update of the active dialogs) is identical to its outcome
on the same state with every evaluation entry removed, i.e. exactly the
dialog-phase validations apply. -/
theorem evaluation_phase_blocks_messages_not_evaluation
    (profiles : List PersonProfile) (oracle : EvalChoiceOracle) (st : DMState)
    (cid : Nat) (sender evaluator : Peer) (text : String) (time : Nat)
    (score : Int) (mi : Option Int) (conv : Conversation)
    (es : EvaluationState × EvaluationState)
    (hev : mapLookup cid st.evaluations = some es)
    (hval : validateConversationAndPeer st cid sender = .ok conv) :
    onMessageReceived profiles oracle st cid sender text time
      = .error "Conversation is finished. Only evaluation is allowed"
    ∧ (onMessageEvaluated st cid evaluator score mi).map (fun s => s.active_dialogs)
      = (onMessageEvaluated { st with evaluations := [] } cid evaluator score mi).map
          (fun s => s.active_dialogs) := by
  constructor
  · simp only [onMessageReceived, hval, hev, exceptBindOk]
    rfl
  · cases h : validateConversationAndPeer st cid evaluator with
    | error e =>
      have h2 : validateConversationAndPeer { st with evaluations := [] } cid evaluator
          = .error e := h
      simp only [onMessageEvaluated, h, h2]
      rfl
    | ok cv =>
      have h2 : validateConversationAndPeer { st with evaluations := [] } cid evaluator
          = .ok cv := h
      simp only [onMessageEvaluated, h, h2, exceptBindOk]
      by_cases hs : score > 1 ∨ score < 0
      · simp only [hs, if_true, iff_true]
      · simp only [hs, if_false, iff_false]
        cases hf : cv.messages.find? (fun m => m.msg_id ==
            (match mi with
             | some m => m
             | none =>
               match cv.messages.reverse.find? (fun m => m.sender != evaluator) with
               | some m => m.msg_id
               | none => -1)) with
        | none => simp only [hf]
        | some msg =>
          by_cases hsm : msg.sender == evaluator
          · simp only [hf, hsm]
            rfl
          · simp only [hf, hsm]
            rfl

/-- C10 witness: at the evaluation-phase state `c10_st`, a new chat message
from the user is rejected while the same message evaluation behaves exactly
as it would in the dialog phase. -/
theorem evaluation_phase_blocks_messages_not_evaluation_witness :
    onMessageReceived [] theOracle c10_st 1 (Peer.user 1) "hi" 9
      = .error "Conversation is finished. Only evaluation is allowed"
    ∧ (onMessageEvaluated c10_st 1 (Peer.user 1) 1 none).map (fun s => s.active_dialogs)
      = (onMessageEvaluated { c10_st with evaluations := [] } 1 (Peer.user 1) 1 none).map
          (fun s => s.active_dialogs) :=
  evaluation_phase_blocks_messages_not_evaluation [] theOracle c10_st 1
    (Peer.user 1) (Peer.user 1) "hi" 9 1 none
    (mkConv [mkMsg 0 (Peer.user 1) 3, mkMsg 1 (Peer.bot 2) 5])
    (EvaluationState.NONE, EvaluationState.NONE) (by decide) (by decide)

theorem find?_message_by_id (ms : List Message) (m : Message)
    (hnd : ms.Pairwise (fun a b => a.msg_id ≠ b.msg_id)) (hm : m ∈ ms) :
    ms.find? (fun mm => mm.msg_id == m.msg_id) = some m := by
  induction ms with
  | nil => cases hm
  | cons a rest ih =>
    rcases List.mem_cons.mp hm with rfl | hm'
    · simp [List.find?_cons]
    · have hne : a.msg_id ≠ m.msg_id := (List.pairwise_cons.mp hnd).1 m hm'
      have hb : (a.msg_id == m.msg_id) = false := by simp [hne]
      simp [List.find?_cons, hb, ih (List.pairwise_cons.mp hnd).2 hm']

theorem find?_sentinel_none (ms : List Message) (h : ∀ m ∈ ms, 0 ≤ m.msg_id) :
    ms.find? (fun mm => mm.msg_id == (-1 : Int)) = none := by
  induction ms with
  | nil => rfl
  | cons a rest ih =>
    have h0 := h a (List.mem_cons_self a rest)
    have ha : (a.msg_id == (-1 : Int)) = false := by
      simp only [beq_eq_false_iff_ne, ne_eq]
      omega
    simp [List.find?_cons, ha, ih (fun m hm => h m (List.mem_cons_of_mem a hm))]

theorem updateFirstMessage_get? (ms : List Message) (m : Message) (score : Int)
    (hnd : ms.Pairwise (fun a b => a.msg_id ≠ b.msg_id)) (hm : m ∈ ms) :
    ∃ i, ms.get? i = some m
      ∧ (updateFirstMessage m.msg_id score ms).get? i
          = some { m with evaluation_score := some score }
      ∧ ∀ j, j ≠ i → (updateFirstMessage m.msg_id score ms).get? j = ms.get? j := by
  induction ms with
  | nil => cases hm
  | cons a rest ih =>
    rcases List.mem_cons.mp hm with rfl | hm'
    · refine ⟨0, List.get?_cons_zero, ?_, ?_⟩
      · simp [updateFirstMessage]
      · intro j hj
        match j with
        | 0 => exact absurd rfl hj
        | Nat.succ n => simp [updateFirstMessage]
    · have hne : a.msg_id ≠ m.msg_id := (List.pairwise_cons.mp hnd).1 m hm'
      have hb : (a.msg_id == m.msg_id) = false := by simp [hne]
      obtain ⟨i, h1, h2, h3⟩ := ih (List.pairwise_cons.mp hnd).2 hm'
      have hcons : updateFirstMessage m.msg_id score (a :: rest)
          = a :: updateFirstMessage m.msg_id score rest := by
        simp [updateFirstMessage, hb]
      refine ⟨i + 1, ?_, ?_, ?_⟩
      · rw [List.get?_cons_succ]
        exact h1
      · rw [hcons, List.get?_cons_succ]
        exact h2
      · intro j hj
        match j with
        | 0 => rw [hcons]; rfl
        | Nat.succ n =>
          have hni : n ≠ i := fun hh => hj (by rw [hh])
          rw [hcons, List.get?_cons_succ, List.get?_cons_succ]
          exact h3 n hni

/-- C8: message evaluation raises unless the score is in 0..1; an omitted
msg_id targets the most recent message whose sender differs from the
evaluator; the call is rejected when the target message's sender is the
evaluator or when no target exists (in particular when every message was
sent by the evaluator, since the -1 sentinel matches no stored id); and
otherwise exactly the targeted message gets its evaluation_score set. -/
theorem message_evaluation_rules
    (st : DMState) (cid : Nat) (evaluator : Peer) (score : Int) (tid : Int)
    (conv : Conversation) (m : Message)
    (hval : validateConversationAndPeer st cid evaluator = .ok conv) :
    ((score > 1 ∨ score < 0) → ∀ mi, onMessageEvaluated st cid evaluator score mi
        = .error "Score should be within a range 0 to 1")
    ∧ (0 ≤ score → score ≤ 1 →
        conv.messages.reverse.find? (fun mm => mm.sender != evaluator) = some m →
        conv.messages.Pairwise (fun a b => a.msg_id ≠ b.msg_id) →
        onMessageEvaluated st cid evaluator score none
          = .ok (setConversation st cid
              { conv with messages := updateFirstMessage m.msg_id score conv.messages }))
    ∧ (0 ≤ score → score ≤ 1 →
        conv.messages.reverse.find? (fun mm => mm.sender != evaluator) = none →
        (∀ mm ∈ conv.messages, 0 ≤ mm.msg_id) →
        onMessageEvaluated st cid evaluator score none
          = .error "Could not find a message with this id")
    ∧ (0 ≤ score → score ≤ 1 →
        conv.messages.find? (fun mm => mm.msg_id == tid) = none →
        onMessageEvaluated st cid evaluator score (some tid)
          = .error "Could not find a message with this id")
    ∧ (0 ≤ score → score ≤ 1 →
        conv.messages.find? (fun mm => mm.msg_id == tid) = some m →
        m.sender = evaluator →
        onMessageEvaluated st cid evaluator score (some tid)
          = .error "Could not find evaluate own messages")
    ∧ (0 ≤ score → score ≤ 1 →
        conv.messages.find? (fun mm => mm.msg_id == tid) = some m →
        m.sender ≠ evaluator →
        onMessageEvaluated st cid evaluator score (some tid)
          = .ok (setConversation st cid
              { conv with messages := updateFirstMessage tid score conv.messages }))
    ∧ (conv.messages.Pairwise (fun a b => a.msg_id ≠ b.msg_id) → m ∈ conv.messages →
        ∃ i, conv.messages.get? i = some m
          ∧ (updateFirstMessage m.msg_id score conv.messages).get? i
              = some { m with evaluation_score := some score }
          ∧ ∀ j, j ≠ i →
              (updateFirstMessage m.msg_id score conv.messages).get? j
                = conv.messages.get? j) := by
  refine ⟨?_, ?_, ?_, ?_, ?_, ?_, ?_⟩
  · intro hs mi
    simp only [onMessageEvaluated, hval, exceptBindOk, hs, if_true, iff_true]
    rfl
  · intro h0 h1 hrev hnd
    have hs : ¬(score > 1 ∨ score < 0) := by omega
    have hmem : m ∈ conv.messages := List.mem_reverse.mp (List.mem_of_find?_eq_some hrev)
    have hsender : m.sender ≠ evaluator := by
      have := List.find?_some hrev
      exact bne_iff_ne.mp this
    have hfind : conv.messages.find? (fun mm => mm.msg_id == m.msg_id) = some m :=
      find?_message_by_id conv.messages m hnd hmem
    have hsb : (m.sender == evaluator) = false := by simp [hsender]
    simp only [onMessageEvaluated, hval, exceptBindOk, hs, if_false, iff_false, hrev,
               hfind, hsb]
    rfl
  · intro h0 h1 hrev hnn
    have hs : ¬(score > 1 ∨ score < 0) := by omega
    have hfind := find?_sentinel_none conv.messages hnn
    simp only [onMessageEvaluated, hval, exceptBindOk, hs, if_false, iff_false, hrev,
               hfind]
    rfl
  · intro h0 h1 hfind
    have hs : ¬(score > 1 ∨ score < 0) := by omega
    simp only [onMessageEvaluated, hval, exceptBindOk, hs, if_false, iff_false, hfind]
    rfl
  · intro h0 h1 hfind hsm
    have hs : ¬(score > 1 ∨ score < 0) := by omega
    have hsb : (m.sender == evaluator) = true := by simp [hsm]
    simp only [onMessageEvaluated, hval, exceptBindOk, hs, if_false, iff_false, hfind,
               hsb]
    rfl
  · intro h0 h1 hfind hsm
    have hs : ¬(score > 1 ∨ score < 0) := by omega
    have hsb : (m.sender == evaluator) = false := by simp [hsm]
    simp only [onMessageEvaluated, hval, exceptBindOk, hs, if_false, iff_false, hfind,
               hsb]
    rfl
  · intro hnd hm
    exact updateFirstMessage_get? conv.messages m score hnd hm

/-- C8 witness: with score 1 and no msg_id, the user evaluates the most
recent bot message of the two-message conversation, whose score is set. -/
theorem message_evaluation_rules_witness :
    onMessageEvaluated c8_st 1 (Peer.user 1) 1 none
      = .ok (setConversation c8_st 1
          { mkConv [mkMsg 0 (Peer.user 1) 3, mkMsg 1 (Peer.bot 2) 5] with
            messages := updateFirstMessage 1 1
              (mkConv [mkMsg 0 (Peer.user 1) 3, mkMsg 1 (Peer.bot 2) 5]).messages }) :=
  (message_evaluation_rules c8_st 1 (Peer.user 1) 1 1
    (mkConv [mkMsg 0 (Peer.user 1) 3, mkMsg 1 (Peer.bot 2) 5])
    (mkMsg 1 (Peer.bot 2) 5) (by decide)).2.1
    (by decide) (by decide) (by decide) (by decide)

theorem mapLookup_mem {α : Type} (k : Nat) (v : α) (m : List (Nat × α))
    (h : mapLookup k m = some v) : (k, v) ∈ m := by
  induction m with
  | nil => cases h
  | cons p rest ih =>
    obtain ⟨p1, p2⟩ := p
    simp only [mapLookup] at h
    by_cases hp : p1 = k
    · subst hp
      rw [if_pos rfl] at h
      injection h with h2
      subst h2
      exact List.mem_cons_self _ _
    · rw [if_neg hp] at h
      exact List.mem_cons_of_mem _ (ih h)

theorem mapErase_subset {α : Type} (k : Nat) (m : List (Nat × α)) (p : Nat × α)
    (h : p ∈ mapErase k m) : p ∈ m := by
  induction m with
  | nil => cases h
  | cons q rest ih =>
    simp only [mapErase] at h
    by_cases hq : q.1 = k
    · rw [if_pos hq] at h
      exact List.mem_cons_of_mem q (ih h)
    · rw [if_neg hq] at h
      rcases List.mem_cons.mp h with rfl | h'
      · exact List.mem_cons_self _ _
      · exact List.mem_cons_of_mem q (ih h')

theorem validate_ok_inv (st : DMState) (cid : Nat) (peer : Peer)
    (conv : Conversation) (h : validateConversationAndPeer st cid peer = .ok conv) :
    mapLookup cid st.active_dialogs = some conv
    ∧ conv.participants.any (fun p => p.peer == peer) = true := by
  unfold validateConversationAndPeer at h
  split at h
  · cases h
  · rename_i c heq
    split at h
    · rename_i hp
      injection h with h2
      subst h2
      exact ⟨heq, hp⟩
    · cases h

theorem validateConversationAndPeer_ok (st : DMState) (cid : Nat) (peer : Peer)
    (conv : Conversation) (h : validateConversationAndPeer st cid peer = .ok conv) :
    mapLookup cid st.active_dialogs = some conv :=
  (validate_ok_inv st cid peer conv h).1

theorem validateConversationAndPeer_setConversation
    (st : DMState) (cid : Nat) (c : Conversation) (peer : Peer)
    (hp : c.participants.any (fun p => p.peer == peer) = true) :
    validateConversationAndPeer (setConversation st cid c) cid peer = .ok c := by
  unfold validateConversationAndPeer
  rw [show (setConversation st cid c).active_dialogs
      = mapInsert cid c st.active_dialogs from rfl]
  rw [mapLookup_mapInsert_self]
  exact if_pos hp

theorem msgIdsDense_iff (ms : List Message) :
    msgIdsDense ms = true ↔ ∀ i m, ms.get? i = some m → m.msg_id = (i : Int) := by
  unfold msgIdsDense
  rw [List.all_eq_true]
  constructor
  · intro h i m hget
    have hi : i < ms.length := by
      by_contra hlt
      rw [List.get?_eq_none.mpr (Nat.le_of_not_lt hlt)] at hget
      cases hget
    have hh := h i (List.mem_range.mpr hi)
    rw [hget] at hh
    simpa [beq_iff_eq] using hh
  · intro h i hi
    cases hget : ms.get? i with
    | none =>
      rw [List.get?_eq_none] at hget
      have := List.mem_range.mp hi
      omega
    | some m => simp [hget, h i m hget]

theorem msgIdsDense_append (ms : List Message) (m : Message)
    (hd : msgIdsDense ms = true) (hm : m.msg_id = (ms.length : Int)) :
    msgIdsDense (ms ++ [m]) = true := by
  rw [msgIdsDense_iff] at hd ⊢
  intro i mm hget
  by_cases hi : i < ms.length
  · rw [List.get?_append hi] at hget
    exact hd i mm hget
  · have hle : ms.length ≤ i := Nat.le_of_not_lt hi
    have hlen : (ms ++ [m]).length = ms.length + 1 := by
      simp [List.length_append]
    have hlt : i < ms.length + 1 := by
      by_contra hgt
      have hnone : (ms ++ [m]).length ≤ i := by omega
      rw [List.get?_eq_none.mpr hnone] at hget
      cases hget
    have hieq : i = ms.length := by omega
    subst hieq
    rw [List.get?_concat_length] at hget
    injection hget with h2
    rw [← h2, hm]

theorem allDialogsDense_lookup (st : DMState) (cid : Nat) (conv : Conversation)
    (h : allDialogsDense st = true) (hl : mapLookup cid st.active_dialogs = some conv) :
    msgIdsDense conv.messages = true := by
  unfold allDialogsDense at h
  rw [List.all_eq_true] at h
  exact h (cid, conv) (mapLookup_mem cid conv st.active_dialogs hl)

theorem allDialogsDense_setConversation (st : DMState) (cid : Nat) (c : Conversation)
    (h : allDialogsDense st = true) (hc : msgIdsDense c.messages = true) :
    allDialogsDense (setConversation st cid c) = true := by
  unfold allDialogsDense at h ⊢
  rw [List.all_eq_true] at h ⊢
  simp only [setConversation, mapInsert]
  intro p hp
  rcases List.mem_cons.mp hp with rfl | hp'
  · exact hc
  · exact h p (mapErase_subset cid st.active_dialogs p hp')

theorem allDialogsDense_resetTimer (st : DMState) (cid : Nat) :
    allDialogsDense (resetInactivityTimer st cid) = allDialogsDense st := rfl

theorem triggerDialogEnd_ok_active
    (profiles : List PersonProfile) (oracle : EvalChoiceOracle) (st : DMState)
    (cid : Nat) (peer : Peer) (st' : DMState) (events : List Event)
    (conv : Conversation)
    (hval : validateConversationAndPeer st cid peer = .ok conv)
    (h : triggerDialogEnd profiles oracle st cid peer = .ok (st', events)) :
    st'.active_dialogs
      = mapInsert cid
          (assignEvaluationOptions profiles oracle (markTriggeredDialogEnd conv peer))
          (mapInsert cid (markTriggeredDialogEnd conv peer) st.active_dialogs) := by
  simp only [triggerDialogEnd, hval, exceptBindOk] at h
  simp only [initiateFinalEvaluation, setConversation, mapLookup_mapInsert_self] at h
  injection h with h2
  rw [Prod.mk.injEq] at h2
  rw [← h2.1]
  rfl

theorem triggerDialogEnd_preserves_dense
    (profiles : List PersonProfile) (oracle : EvalChoiceOracle) (st : DMState)
    (cid : Nat) (peer : Peer) (st' : DMState) (events : List Event)
    (conv : Conversation)
    (hval : validateConversationAndPeer st cid peer = .ok conv)
    (h : triggerDialogEnd profiles oracle st cid peer = .ok (st', events))
    (hd : allDialogsDense st = true) :
    allDialogsDense st' = true := by
  have hact :=
    triggerDialogEnd_ok_active profiles oracle st cid peer st' events conv hval h
  have hconvd : msgIdsDense conv.messages = true :=
    allDialogsDense_lookup st cid conv hd (validateConversationAndPeer_ok st cid peer conv hval)
  unfold allDialogsDense
  rw [List.all_eq_true, hact]
  simp only [mapInsert]
  intro p hp
  rcases List.mem_cons.mp hp with rfl | hp'
  · exact hconvd
  · have hp2 := mapErase_subset cid _ p hp'
    rcases List.mem_cons.mp hp2 with rfl | hp3
    · exact hconvd
    · have hp4 := mapErase_subset cid _ p hp3
      unfold allDialogsDense at hd
      rw [List.all_eq_true] at hd
      exact hd p hp4

theorem next_topic_messages (c : Conversation) : (c.next_topic.2).messages = c.messages := by
  unfold Conversation.next_topic
  by_cases h1 : c.active_topic_index + 1 <
      min c.participant1.assigned_profile.topics.length
        c.participant2.assigned_profile.topics.length
  · by_cases h2 : c.messages_to_switch_topic_left = 0
    · simp [h1, h2]
    · simp [h1, h2]
  · simp [h1]

theorem switchToNextTopic_preserves_dense
    (st : DMState) (cid : Nat) (peer : Peer) (now : Nat) (st2 : DMState)
    (events2 : List Event) (rb : Option Bool)
    (h : switchToNextTopic st cid peer now = .ok (st2, events2, rb))
    (hd : allDialogsDense st = true) :
    allDialogsDense st2 = true := by
  cases hval : validateConversationAndPeer st cid peer with
  | error e =>
    simp only [switchToNextTopic, hval, exceptBindError] at h
    cases h
  | ok conv =>
    have hconvd : msgIdsDense conv.messages = true :=
      allDialogsDense_lookup st cid conv hd
        (validateConversationAndPeer_ok st cid peer conv hval)
    simp only [switchToNextTopic, hval, exceptBindOk] at h
    rcases hnt : conv.next_topic with ⟨r, cc⟩
    have hccm : cc.messages = conv.messages := by
      have hn := next_topic_messages conv
      rw [hnt] at hn
      exact hn
    rw [hnt] at h
    have hccd : msgIdsDense cc.messages = true := by
      rw [hccm]; exact hconvd
    by_cases hr : (r != 0) = true
    · simp only [hr, if_true] at h
      injection h with h2
      rw [Prod.mk.injEq] at h2
      rw [← h2.1]
      refine allDialogsDense_setConversation _ cid _ ?_ ?_
      · exact allDialogsDense_setConversation st cid cc hd hccd
      · exact msgIdsDense_append cc.messages _ hccd rfl
    · simp only [hr, Bool.false_eq_true, if_false] at h
      injection h with h2
      rw [Prod.mk.injEq] at h2
      rw [← h2.1]
      exact allDialogsDense_setConversation st cid cc hd hccd

/-- C4: for every live conversation the stored messages satisfy
`messages[i].msg_id = i`: the invariant is preserved by every accepted
`on_message_received` call (the appended message carries
msg_id = number of messages already stored and exactly that id is returned
to the caller) and by every `switch_to_next_topic` call (its synthetic
system message also takes the next dense id). -/
theorem message_ids_stay_dense
    (profiles : List PersonProfile) (oracle : EvalChoiceOracle) (st : DMState)
    (cid : Nat) (sender peer : Peer) (text : String) (time now : Nat)
    (st' st2 : DMState) (events events2 : List Event) (mid : Int) (rb : Option Bool)
    (hdense : allDialogsDense st = true) :
    (onMessageReceived profiles oracle st cid sender text time = .ok (st', events, mid) →
      allDialogsDense st' = true
      ∧ ∃ conv, validateConversationAndPeer st cid sender = .ok conv
          ∧ mid = (conv.messages.length : Int)
          ∧ ∃ conv', mapLookup cid st'.active_dialogs = some conv'
              ∧ conv'.messages = conv.messages
                  ++ [{ msg_id := mid, text := text, sender := sender, time := time,
                        evaluation_score := none, system := false }])
    ∧ (switchToNextTopic st cid peer now = .ok (st2, events2, rb) →
        allDialogsDense st2 = true) := by
  constructor
  · intro h
    cases hval : validateConversationAndPeer st cid sender with
    | error e =>
      simp only [onMessageReceived, hval, exceptBindError] at h
      cases h
    | ok conv =>
      have hconvd : msgIdsDense conv.messages = true :=
        allDialogsDense_lookup st cid conv hdense
          (validateConversationAndPeer_ok st cid sender conv hval)
      have happd : msgIdsDense (conv.messages ++
          [{ msg_id := (conv.messages.length : Int), text := text, sender := sender,
             time := time, evaluation_score := none, system := false }]) = true :=
        msgIdsDense_append conv.messages _ hconvd rfl
      simp only [onMessageReceived, hval, exceptBindOk] at h
      split at h
      · cases h
      · split at h
        · cases h
        · rename_i receiver hrecv
          split at h
          · rename_i hlen
            cases htde : triggerDialogEnd profiles oracle
                (setConversation st cid { conv with messages := conv.messages ++
                  [{ msg_id := (conv.messages.length : Int), text := text,
                     sender := sender, time := time, evaluation_score := none,
                     system := false }] }) cid sender with
            | error e =>
              rw [htde] at h
              cases h
            | ok r =>
              obtain ⟨st'', ev''⟩ := r
              rw [htde] at h
              simp at h
              obtain ⟨hst, _hev2, hmid⟩ := h
              have hval2 := validateConversationAndPeer_setConversation st cid
                ({ conv with messages := conv.messages ++
                  [{ msg_id := (conv.messages.length : Int), text := text,
                     sender := sender, time := time, evaluation_score := none,
                     system := false }] }) sender
                ((validate_ok_inv st cid sender conv hval).2)
              have hsd : allDialogsDense st' = true := by
                rw [← hst]
                exact triggerDialogEnd_preserves_dense profiles oracle _ cid sender
                  st'' ev'' _ hval2 htde
                  (allDialogsDense_setConversation st cid _ hdense happd)
              refine ⟨hsd, conv, rfl, hmid.symm, ?_⟩
              have hact := triggerDialogEnd_ok_active profiles oracle
                _ cid sender st'' ev'' _ hval2 htde
              refine ⟨assignEvaluationOptions profiles oracle
                  (markTriggeredDialogEnd ({ conv with messages := conv.messages ++
                    [{ msg_id := (conv.messages.length : Int), text := text,
                       sender := sender, time := time, evaluation_score := none,
                       system := false }] }) sender), ?_, ?_⟩
              · rw [← hst, hact, mapLookup_mapInsert_self]
              · rw [← hmid]
                rfl
          · rename_i hlen
            injection h with h2
            rw [Prod.mk.injEq, Prod.mk.injEq] at h2
            obtain ⟨hst, _hev2, hmid⟩ := h2
            have hsd : allDialogsDense st' = true := by
              rw [← hst, allDialogsDense_resetTimer]
              exact allDialogsDense_setConversation st cid _ hdense happd
            refine ⟨hsd, conv, rfl, hmid.symm, ?_⟩
            refine ⟨{ conv with messages := conv.messages ++
                [{ msg_id := (conv.messages.length : Int), text := text,
                   sender := sender, time := time, evaluation_score := none,
                   system := false }] }, ?_, ?_⟩
            · rw [← hst]
              exact mapLookup_mapInsert_self cid _ st.active_dialogs
            · rw [← hmid]
  · intro h
    exact switchToNextTopic_preserves_dense st cid peer now st2 events2 rb h hdense

/-- C4 witness: sending "hi" in the two-message conversation appends the
message with msg_id 2 (the prior count), returns 2, and the invariant still
holds in the resulting state. -/
theorem message_ids_stay_dense_witness :
    allDialogsDense c4_state_after = true
    ∧ ∃ conv, validateConversationAndPeer c8_st 1 (Peer.user 1) = Except.ok conv
        ∧ (2 : Int) = (conv.messages.length : Int)
        ∧ ∃ conv', mapLookup 1 c4_state_after.active_dialogs = some conv'
            ∧ conv'.messages = conv.messages
                ++ [{ msg_id := 2, text := "hi", sender := Peer.user 1, time := 9,
                      evaluation_score := none, system := false }] :=
  (message_ids_stay_dense [] theOracle c8_st 1 (Peer.user 1) (Peer.user 1) "hi" 9 9
    c4_state_after c8_st [Event.sentMessage 1 2 "hi" (Peer.bot 2)] [] 2 none
    (by decide)).1 (by decide)

theorem effectiveLimit_bounds (l : Option Int) :
    1 ≤ effectiveLimit l ∧ effectiveLimit l ≤ 100 := by
  cases l with
  | none => exact ⟨by decide, by decide⟩
  | some v =>
    show 1 ≤ min 100 (max (if v = 0 then (100 : Int) else v) 1)
      ∧ min 100 (max (if v = 0 then (100 : Int) else v) 1) ≤ 100
    by_cases hv : v = 0
    · rw [if_pos hv]
      omega
    · rw [if_neg hv]
      omega

theorem numberFrom_map_message (base : Nat) (ms : List QueuedMessage) :
    (numberFrom base ms).map (fun u => u.message) = ms := by
  induction ms generalizing base with
  | nil => rfl
  | cons m rest ih => simp [numberFrom, ih]

theorem numberFrom_length (base : Nat) (ms : List QueuedMessage) :
    (numberFrom base ms).length = ms.length := by
  induction ms generalizing base with
  | nil => rfl
  | cons m rest ih => simp [numberFrom, ih]

theorem numberFrom_get? (base : Nat) (ms : List QueuedMessage) (i : Nat) :
    (numberFrom base ms).get? i = (ms.get? i).map (fun m => ⟨base + i, m⟩) := by
  induction ms generalizing base i with
  | nil => simp [numberFrom]
  | cons m rest ih =>
    cases i with
    | zero => simp [numberFrom]
    | succ n =>
      have harith : base + 1 + n = base + (n + 1) := by omega
      simp only [numberFrom, List.get?_cons_succ, ih (base + 1) n, harith]

theorem numberFrom_id_bounds (base : Nat) (ms : List QueuedMessage) (u : Update)
    (h : u ∈ numberFrom base ms) :
    base ≤ u.update_id ∧ u.update_id < base + ms.length := by
  induction ms generalizing base with
  | nil => cases h
  | cons m rest ih =>
    simp only [numberFrom] at h
    rcases List.mem_cons.mp h with rfl | h'
    · refine ⟨Nat.le_refl base, ?_⟩
      show base < base + (rest.length + 1)
      omega
    · have hb := ih (base + 1) h'
      refine ⟨by omega, ?_⟩
      show u.update_id < base + (rest.length + 1)
      omega

theorem numberFrom_pairwise (base : Nat) (ms : List QueuedMessage) :
    (numberFrom base ms).Pairwise (fun a b => a.update_id < b.update_id) := by
  induction ms generalizing base with
  | nil => exact List.Pairwise.nil
  | cons m rest ih =>
    simp only [numberFrom]
    refine List.pairwise_cons.mpr ⟨?_, ih (base + 1)⟩
    intro b hb
    have h1 := (numberFrom_id_bounds (base + 1) rest b hb).1
    show base < b.update_id
    omega

theorem runTrace_id_lower (tr : List BotEvent) (bot : BotState) (u : Update)
    (h : u ∈ (runTrace bot tr).2) : bot.last_update_id ≤ u.update_id := by
  induction tr generalizing bot with
  | nil => cases h
  | cons e rest ih =>
    cases e with
    | enqueue m =>
      simp only [runTrace] at h
      exact ih { bot with queue := bot.queue ++ [m] } h
    | poll t l =>
      simp only [runTrace] at h
      rcases List.mem_append.mp h with h1 | h2
      · exact (numberFrom_id_bounds bot.last_update_id _ u
          (by simpa [getUpdates] using h1)).1
      · have hlow := ih (getUpdates bot t l).2 h2
        have heq : (getUpdates bot t l).2.last_update_id
            = bot.last_update_id
              + (bot.queue.take (effectiveLimit l).toNat).length := by
          simp [getUpdates]
        omega

theorem runTrace_pairwise (tr : List BotEvent) (bot : BotState) :
    ((runTrace bot tr).2).Pairwise (fun a b => a.update_id < b.update_id) := by
  induction tr generalizing bot with
  | nil => exact List.Pairwise.nil
  | cons e rest ih =>
    cases e with
    | enqueue m =>
      simp only [runTrace]
      exact ih _
    | poll t l =>
      simp only [runTrace]
      refine List.pairwise_append.mpr ⟨?_, ih _, ?_⟩
      · simpa [getUpdates] using numberFrom_pairwise bot.last_update_id
          (bot.queue.take (effectiveLimit l).toNat)
      · intro a ha b hb
        have hb' := runTrace_id_lower rest (getUpdates bot t l).2 b hb
        have ha' := numberFrom_id_bounds bot.last_update_id
          (bot.queue.take (effectiveLimit l).toNat) a (by simpa [getUpdates] using ha)
        have heq : (getUpdates bot t l).2.last_update_id
            = bot.last_update_id
              + (bot.queue.take (effectiveLimit l).toNat).length := by
          simp [getUpdates]
        omega

/-- C6 (amended): `get_updates` treats an omitted limit and a limit of 0 as
100, clamps every other limit into [1, 100], drains queued envelopes in FIFO
order as a prefix of the queue bounded by the effective limit (hence never
more than 100), numbers the i-th returned update `lastUpdateId + i`,
persists `lastUpdateId + n`, and across any run of enqueues and polls the
returned update ids are strictly increasing. -/
theorem get_updates_spec
    (bot : BotState) (t l : Option Int) (lv : Int) (i : Nat) (u : Update)
    (tr : List BotEvent) :
    effectiveLimit none = 100
    ∧ effectiveLimit (some 0) = 100
    ∧ (1 ≤ lv → lv ≤ 100 → effectiveLimit (some lv) = lv)
    ∧ (1 ≤ effectiveLimit l ∧ effectiveLimit l ≤ 100)
    ∧ (getUpdates bot t l).1.map (fun v => v.message)
        = bot.queue.take (effectiveLimit l).toNat
    ∧ (getUpdates bot t l).1.length ≤ 100
    ∧ ((getUpdates bot t l).1.get? i = some u →
        u.update_id = bot.last_update_id + i)
    ∧ (getUpdates bot t l).2.last_update_id
        = bot.last_update_id + (getUpdates bot t l).1.length
    ∧ (getUpdates bot t l).2.queue = bot.queue.drop (effectiveLimit l).toNat
    ∧ ((runTrace bot tr).2).Pairwise (fun a b => a.update_id < b.update_id) := by
  refine ⟨by decide, by decide, ?_, effectiveLimit_bounds l, ?_, ?_, ?_, ?_, rfl, ?_⟩
  · intro h1 h2
    unfold effectiveLimit
    have hv : ¬ lv = 0 := by omega
    simp [hv]
    omega
  · simp [getUpdates, numberFrom_map_message]
  · have hlen : (getUpdates bot t l).1.length
        = (bot.queue.take (effectiveLimit l).toNat).length := by
      simp [getUpdates, numberFrom_length]
    rw [hlen, List.length_take]
    have hb := (effectiveLimit_bounds l).2
    have : (effectiveLimit l).toNat ≤ 100 := Int.toNat_le.mpr hb
    omega
  · intro h
    have hget : (getUpdates bot t l).1.get? i
        = ((bot.queue.take (effectiveLimit l).toNat).get? i).map
            (fun m => ⟨bot.last_update_id + i, m⟩) := by
      simp only [getUpdates]
      exact numberFrom_get? bot.last_update_id _ i
    rw [hget] at h
    cases hq : (bot.queue.take (effectiveLimit l).toNat).get? i with
    | none => rw [hq] at h; cases h
    | some m =>
      rw [hq] at h
      injection h with h2
      rw [← h2]
  · simp [getUpdates, numberFrom_length]
  · exact runTrace_pairwise tr bot

/-- C6 witness: polling the two-envelope mailbox with limit 2 returns both
messages with update ids 5 and 6 and persists lastUpdateId 7. -/
theorem get_updates_spec_witness :
    ((getUpdates c6_bot none (some 2)).1.get? 1
        = some { update_id := 6,
                 message := { text := "b", conversation_id := 1, message_id := 1 } })
    ∧ ({ update_id := 6,
         message := { text := "b", conversation_id := 1, message_id := 1 } }
          : Update).update_id = c6_bot.last_update_id + 1
    ∧ (getUpdates c6_bot none (some 2)).2.last_update_id = 7 :=
  ⟨by decide,
   (get_updates_spec c6_bot none (some 2) 2 1
     { update_id := 6,
       message := { text := "b", conversation_id := 1, message_id := 1 } }
     []).2.2.2.2.2.2.1 (by decide),
   by decide⟩

end ConvaiRouter
